import Mathlib

/-!
Verification development for the redis-vl-python repository.

The repository ships a schema-driven vector-search layer: a field type
system, a schema model, a vector codec, query builders, an index manager
and vectorizer wrappers.  Only the documentation notebooks are present in
the source tree, so the components exercised by those notebooks are
modelled here from the specification (each such definition carries a
`Modelled from the spec:` doc comment) and the claims are settled against
the models.

Layout: all definitions first, then the theorems.
-/

namespace RedisVL

/-! ## Vector codec (spec section 4.3)

Vectors are represented by the per-element bit patterns that the codec
stores: an element of a `w`-byte datatype is a natural number `< 256^w`.
Floating-point rounding (the conversion from an arbitrary real to the
nearest representable value) happens before the codec runs, so "equality
within the datatype's representable precision" is exact equality of the
stored bit patterns. -/

/-- Modelled from the spec: the four supported vector element datatypes
(spec sections 3 and 4.3; the redisvl codec module is absent from the
source tree). -/
inductive Datatype where
  | float16
  | float32
  | float64
  | bfloat16
deriving DecidableEq, Repr

/-- Modelled from the spec: element width in bytes — 2/4/8 bytes for
float16/32/64, and bfloat16 is a 16-bit (2-byte) layout. -/
def Datatype.widthBytes : Datatype → Nat
  | .float16 => 2
  | .float32 => 4
  | .float64 => 8
  | .bfloat16 => 2

/-- Serialize a machine word into `n` little-endian bytes (least
significant byte first), the layout the storage engine expects. -/
def natToLEBytes : Nat → Nat → List Nat
  | 0, _ => []
  | n + 1, w => w % 256 :: natToLEBytes n (w / 256)

/-- Read a little-endian byte sequence back into a machine word. -/
def leBytesToNat : List Nat → Nat
  | [] => 0
  | b :: bs => b % 256 + 256 * leBytesToNat bs

/-- Modelled from the spec: `encode(values, datatype)` packs each element
into its fixed-width little-endian byte layout, tightly, in order
(spec section 4.3; the redisvl `array_to_buffer` implementation is absent
from the source tree). -/
def encode (values : List Nat) (dt : Datatype) : List Nat :=
  (values.map (natToLEBytes dt.widthBytes)).flatten

/-- Decode `dims` elements of width `w` bytes from a byte sequence. -/
def decodeAux (w : Nat) : Nat → List Nat → List Nat
  | 0, _ => []
  | d + 1, bs => leBytesToNat (bs.take w) :: decodeAux w d (bs.drop w)

/-- Modelled from the spec: `decode(bytes, datatype, dims)` reads `dims`
fixed-width little-endian elements back out of the byte buffer
(spec section 4.3; the redisvl `buffer_to_array` implementation is absent
from the source tree). -/
def decode (bytes : List Nat) (dt : Datatype) (dims : Nat) : List Nat :=
  decodeAux dt.widthBytes dims bytes

/-! ## Stored records and the record store

Numeric values held by the engine model are exact integers: the claims
settled against this model only ever compare equal numeric values, so an
exact carrier loses nothing while keeping every definition executable. -/

/-- Modelled from the spec: a stored field value — a string, a number, or
a numeric vector (spec section 3, stored records and ResultRecord). -/
inductive Value where
  | str (s : String)
  | num (n : Int)
  | vec (v : List Int)
deriving DecidableEq, Repr

/-- A stored record: an ordered field-name/value mapping. -/
abbrev Record := List (String × Value)

/-- Look a field up in a record (first occurrence wins). -/
def getField (r : Record) (f : String) : Option Value :=
  (r.find? (fun p => p.1 == f)).map (fun p => p.2)

/-- The keyed record store held by the remote engine. -/
abbrev Store := List (String × Record)

/-- Look a key up in the store. -/
def lookupKey (st : Store) (k : String) : Option Record :=
  (st.find? (fun p => p.1 == k)).map (fun p => p.2)

/-- Write one keyed record: replace the record when the key is already
present, append it otherwise (upsert). -/
def setKey (st : Store) (k : String) (r : Record) : Store :=
  if st.any (fun p => p.1 == k) then
    st.map (fun p => if p.1 == k then (k, r) else p)
  else
    st ++ [(k, r)]

/-- Modelled from the spec: the bulk-write collaborator writes one batch
of keyed records in order (spec section 6, command-execution
collaborator). -/
def bulkWrite (st : Store) (batch : List (String × Record)) : Store :=
  batch.foldl (fun s kr => setKey s kr.1 kr.2) st

/-! ## Key assignment and `load` (spec section 4.6) -/

/-- Build a storage key from the index key prefix and a record id. -/
def mkKey (pfx id : String) : String := pfx ++ ":" ++ id

/-- Is the key scoped under the given index key prefix? -/
def keyUnder (pfx k : String) : Bool :=
  List.isPrefixOf (pfx ++ ":").data k.data

/-- Read a record's id field as a string (spec: `records[i][idField]`). -/
def fieldAsId (r : Record) (f : String) : String :=
  match getField r f with
  | some (Value.str s) => s
  | _ => ""

/-- Modelled from the spec: the key assigned to the record at input
position `i` — `keys[i]` when `keys` is supplied, else
`pfx:<records[i][idField]>` when `idField` is supplied, else `pfx:<the
i-th generated unique id>` (spec section 4.6, `load`; `gen` supplies the
generated unique ids). -/
def keyFor (pfx : String) (idField : Option String) (keys : Option (List String))
    (gen : List String) (i : Nat) (r : Record) : String :=
  match keys with
  | some ks => ks.getD i ""
  | none =>
    match idField with
    | some f => mkKey pfx (fieldAsId r f)
    | none => mkKey pfx (gen.getD i "")

/-- Process enumerated records in batches of `bsPred + 1` positions: give
each record of the batch its key, bulk-write the batch, recurse on the
remainder, and return the final store together with the assigned keys in
input order. -/
def loadGo (f : Nat × Record → String) (bsPred : Nat) (st : Store) :
    List (Nat × Record) → Store × List String
  | [] => (st, [])
  | x :: xs =>
    let batch := x :: xs.take bsPred
    let ks := batch.map f
    let st1 := bulkWrite st (ks.zip (batch.map (fun p => p.2)))
    let rest := loadGo f bsPred st1 (xs.drop bsPred)
    (rest.1, ks ++ rest.2)
termination_by l => l.length
decreasing_by
  simp only [List.length_drop, List.length_cons]
  omega

/-- Modelled from the spec: `load(records, idField?, keys?)` assigns each
record a key, writes the records in internal batches (of size
`bsPred + 1`) through the bulk-write collaborator, and returns the
assigned keys in input order (spec section 4.6; the redisvl
`SearchIndex.load` implementation is absent from the source tree).  Field
encoding of vector-typed values happens per record before the write and
does not affect key assignment. -/
def load (st : Store) (pfx : String) (records : List Record)
    (idField : Option String) (keys : Option (List String))
    (gen : List String) (bsPred : Nat) : Store × List String :=
  loadGo (fun p => keyFor pfx idField keys gen p.1 p.2) bsPred st records.enum

/-! ## Field type system (spec section 4.1) -/

/-- Modelled from the spec: the vector index algorithms. -/
inductive Algorithm where
  | flat
  | hnsw
deriving DecidableEq, Repr

/-- Modelled from the spec: the vector distance metrics. -/
inductive DistanceMetric where
  | cosine
  | l2
  | ip
deriving DecidableEq, Repr

/-- Raw (pre-validation) vector field attributes; `none` marks an
unspecified attribute. -/
structure VectorAttrsIn where
  dims : Option Nat
  algorithm : Option Algorithm
  distance_metric : Option DistanceMetric
  datatype : Option Datatype
deriving DecidableEq

/-- Normalized vector field attributes. -/
structure VectorAttrs where
  dims : Nat
  algorithm : Algorithm
  distance_metric : DistanceMetric
  datatype : Datatype
deriving DecidableEq

/-- Validation failures raised at construction time. -/
inductive ValidationError where
  | missingDims
  | nonPositiveDims
deriving DecidableEq

/-- Raw kind-specific attributes as they arrive from a schema document;
`none` marks an unspecified attribute. -/
inductive AttrsIn where
  | text (weight : Option Nat)
  | tag (separator : Option Char)
  | numeric
  | geo
  | vector (v : VectorAttrsIn)
deriving DecidableEq

/-- Normalized kind-specific attributes. -/
inductive FieldAttrs where
  | text (weight : Nat)
  | tag (separator : Char)
  | numeric
  | geo
  | vector (v : VectorAttrs)
deriving DecidableEq

/-- Modelled from the spec: vector attribute validation — `dims` is
mandatory and must be a positive integer (a construction-time error
otherwise, never deferred to the remote engine), while unspecified
`algorithm`/`distance_metric`/`datatype` default to flat/cosine/float32
(spec section 4.1; the redisvl schema field module is absent from the
source tree). -/
def validateVectorAttrs (a : VectorAttrsIn) : Except ValidationError VectorAttrs :=
  match a.dims with
  | none => Except.error ValidationError.missingDims
  | some d =>
    if 0 < d then
      Except.ok ⟨d, a.algorithm.getD Algorithm.flat,
        a.distance_metric.getD DistanceMetric.cosine,
        a.datatype.getD Datatype.float32⟩
    else Except.error ValidationError.nonPositiveDims

/-- Modelled from the spec: `validate(kind, attrs)` normalizes field
attributes — a tag field's separator defaults to `','`, a text field's
weight defaults to 1, and vector attributes validate through
`validateVectorAttrs` (spec section 4.1). -/
def validate : AttrsIn → Except ValidationError FieldAttrs
  | AttrsIn.text w => Except.ok (FieldAttrs.text (w.getD 1))
  | AttrsIn.tag s => Except.ok (FieldAttrs.tag (s.getD ','))
  | AttrsIn.numeric => Except.ok FieldAttrs.numeric
  | AttrsIn.geo => Except.ok FieldAttrs.geo
  | AttrsIn.vector a => (validateVectorAttrs a).map FieldAttrs.vector

/-! ## Schema model and engine state (spec sections 3, 4.2, 4.6) -/

/-- Modelled from the spec: a validated field specification. -/
structure FieldSpec where
  name : String
  attrs : FieldAttrs
deriving DecidableEq

/-- Modelled from the spec: the storage modes. -/
inductive StorageType where
  | hash
  | json
deriving DecidableEq, Repr

/-- Modelled from the spec: an index schema — index name, key prefix,
storage mode and the ordered field list (spec section 3). -/
structure IndexSchema where
  name : String
  keyPfx : String
  storage : StorageType
  fields : List FieldSpec
deriving DecidableEq

/-- Find a field by name in a field list. -/
def fieldNamed (fs : List FieldSpec) (n : String) : Option FieldSpec :=
  fs.find? (fun f => f.name == n)

/-- Modelled from the spec: the structural diff between a declared field
list and the deployed one, compared by field name and normalized attrs —
`missing` are declared fields absent remotely (to be added), `extra` are
deployed fields absent from the declaration (removed by the caller), and
`changed` are names whose normalized attrs differ (retyped)
(spec section 4.2). -/
structure SchemaDiff where
  missing : List FieldSpec
  extra : List FieldSpec
  changed : List String

/-- Modelled from the spec: compute the field diff (spec section 4.2). -/
def diffFields (declared deployedFields : List FieldSpec) : SchemaDiff :=
  ⟨declared.filter (fun f => (fieldNamed deployedFields f.name).isNone),
   deployedFields.filter (fun f => (fieldNamed declared f.name).isNone),
   declared.filterMap (fun f =>
     match fieldNamed deployedFields f.name with
     | some g => if g.attrs = f.attrs then none else some f.name
     | none => none)⟩

/-- Modelled from the spec: a schema change is additive when it only adds
new fields — nothing is removed and nothing is retyped; otherwise it is
destructive (spec sections 4.2 and 4.6). -/
def additiveChange (deployed declared : IndexSchema) : Bool :=
  (diffFields declared.fields deployed.fields).extra.isEmpty &&
  (diffFields declared.fields deployed.fields).changed.isEmpty

/-- Modelled from the spec: the remote engine's state for one index — the
deployed index definition when the index exists, the keyed record store,
and the set of keys currently reflected in the deployed index.  Stored
records live independently of the index definition, and a kept record can
be stored yet not reflected in the index (spec sections 3 and 4.6). -/
structure EngineState where
  index : Option IndexSchema
  store : Store
  indexed : List String
deriving DecidableEq

/-- Does the named index exist remotely? -/
def indexExists (st : EngineState) : Bool := st.index.isSome

/-- Outcome indication reported by `create`. -/
inductive CreateResult where
  | created
  | noOp
  | recreated
deriving DecidableEq, Repr

/-- Modelled from the spec: `create(overwrite, drop)` — creates the index
when absent; is a logged no-op success when the index exists and
`overwrite = false`; is a no-op success (not an error) when the index
exists, `overwrite = true` and the declared schema is identical to the
deployed one.  Otherwise it diffs the declared schema against the
deployed one: a purely additive change recreates the index over the same
key space, so the stored records stay reflected in the new index; a
destructive change (field removed or retyped) drops the stored records
under the index prefix when `drop = true`, and when `drop = false` keeps
them in the store but leaves them not reflected in the new index until
re-loaded (spec sections 4.2, 4.6 and 7; the redisvl
`SearchIndex.create` implementation is absent from the source tree). -/
def create (st : EngineState) (schema : IndexSchema) (overwrite drop : Bool) :
    EngineState × CreateResult :=
  match st.index with
  | none => (⟨some schema, st.store, st.indexed⟩, CreateResult.created)
  | some deployed =>
    if overwrite then
      if deployed = schema then (st, CreateResult.noOp)
      else if additiveChange deployed schema then
        (⟨some schema, st.store, st.indexed⟩, CreateResult.recreated)
      else
        (⟨some schema,
          if drop then st.store.filter (fun p => !keyUnder deployed.keyPfx p.1)
          else st.store,
          st.indexed.filter (fun k => !keyUnder deployed.keyPfx k)⟩,
         CreateResult.recreated)
    else (st, CreateResult.noOp)

/-- Modelled from the spec: `fetch(keys)` returns the stored record for
each key, in order; records are addressed by key directly, independently
of the index definition (spec section 4.6). -/
def fetch (st : EngineState) (keys : List String) : List (Option Record) :=
  keys.map (fun k => lookupKey st.store k)

/-- Modelled from the spec: the index-manager `load` against the engine
state — it writes the records through `load` and marks the assigned keys
as reflected in the deployed index (spec section 4.6). -/
def loadOp (st : EngineState) (pfx : String) (records : List Record)
    (idField : Option String) (keys : Option (List String))
    (gen : List String) (bsPred : Nat) : EngineState × List String :=
  match load st.store pfx records idField keys gen bsPred with
  | (store1, ks) => (⟨st.index, store1, st.indexed ++ ks⟩, ks)

/-- Modelled from the spec: `clear()` removes every stored record scoped
under the index's key prefix, and its reflection in the index, while
leaving the index definition in place (getting_started notebook, Cleanup
section; the redisvl `SearchIndex.clear` implementation is absent from
the source tree). -/
def clear (schema : IndexSchema) (st : EngineState) : EngineState :=
  ⟨st.index, st.store.filter (fun p => !keyUnder schema.keyPfx p.1),
   st.indexed.filter (fun k => !keyUnder schema.keyPfx k)⟩

/-- Modelled from the spec: `delete(dropData)` removes the index
definition (and with it every key's reflection in it), and also the
stored records under the index prefix when `dropData = true`
(spec section 4.6). -/
def deleteIndex (schema : IndexSchema) (st : EngineState) (dropData : Bool) : EngineState :=
  ⟨none,
   if dropData then st.store.filter (fun p => !keyUnder schema.keyPfx p.1)
   else st.store,
   st.indexed.filter (fun k => !keyUnder schema.keyPfx k)⟩

/-- Modelled from the spec: `delete()` with default arguments — the
default is `dropData = true`, removing the index and the underlying
records (getting_started notebook, Cleanup section). -/
def deleteDefault (schema : IndexSchema) (st : EngineState) : EngineState :=
  deleteIndex schema st true

/-! ## Query builder and query execution (spec section 4.5) -/

/-- Modelled from the spec: an immutable vector-similarity query
descriptor (spec section 3, QuerySpec). -/
structure VectorQuery where
  vector : List Int
  vector_field_name : String
  return_fields : List String
  num_results : Nat
deriving DecidableEq

/-- Query-construction failures raised before any network activity. -/
inductive QueryError where
  | unknownField (f : String)
  | kindMismatch (f : String)
  | dimsMismatch (declaredDims vectorLength : Nat)
deriving DecidableEq, Repr

/-- Modelled from the spec: constructing a VectorQuery against a schema —
the target field must exist in the schema, be of vector kind, and its
declared `dims` must equal the query vector's length; any violation is a
construction-time error, so no query object ever exists for the remote
engine to see (spec sections 3 and 4.5; the redisvl `VectorQuery`
implementation is absent from the source tree). -/
def mkVectorQuery (schema : IndexSchema) (vector : List Int) (fieldName : String)
    (returnFields : List String) (numResults : Nat) : Except QueryError VectorQuery :=
  match schema.fields.find? (fun g => g.name == fieldName) with
  | none => Except.error (QueryError.unknownField fieldName)
  | some f =>
    match f.attrs with
    | FieldAttrs.vector va =>
      if vector.length = va.dims then
        Except.ok ⟨vector, fieldName, returnFields, numResults⟩
      else Except.error (QueryError.dimsMismatch va.dims vector.length)
    | _ => Except.error (QueryError.kindMismatch fieldName)

/-- The stable name of the synthesized distance column. -/
def distanceId : String := "vector_distance"

/-- Modelled from the spec: the return fields the compiled query asks
for — the user-specified fields, with the synthesized `vector_distance`
column appended after them when the caller did not already list it
(spec section 4.5). -/
def compiledReturnFields (q : VectorQuery) : List String :=
  if distanceId ∈ q.return_fields then q.return_fields
  else q.return_fields ++ [distanceId]

/-- Read a record field as a numeric vector. -/
def getVec (r : Record) (f : String) : Option (List Int) :=
  match getField r f with
  | some (Value.vec v) => some v
  | _ => none

/-- Modelled from the spec: the engine-side distance computation.  The
remote engine is an external collaborator, so a concrete metric with
`distSq v v = 0` (squared euclidean distance) stands in for it; the
claims settled here depend only on that identity. -/
def distSq (a b : List Int) : Int :=
  match a, b with
  | x :: xs, y :: ys => (x - y) * (x - y) + distSq xs ys
  | _, _ => 0

/-- One raw engine result row: key, distance and the stored record. -/
structure Row where
  key : String
  dist : Int
  stored : Record
deriving DecidableEq

/-- Engine ranking order: by distance. -/
def rowLe (x y : Row) : Prop := x.dist ≤ y.dist

instance instDecRowLe : DecidableRel rowLe :=
  fun x y => inferInstanceAs (Decidable (x.dist ≤ y.dist))

/-- Modelled from the spec: the candidate rows the engine scans — when
the index exists, every stored record that is reflected in the deployed
index and carries a vector in the query's target field, in store order,
with its distance to the query vector; records kept in the store but not
reflected in the index are not candidates, and without an index there are
no candidates at all (spec sections 4.5 and 4.6). -/
def candidates (st : EngineState) (q : VectorQuery) : List Row :=
  match st.index with
  | none => []
  | some _ =>
    (st.store.filter (fun p => st.indexed.contains p.1)).filterMap (fun p =>
      (getVec p.2 q.vector_field_name).map (fun v => ⟨p.1, distSq v q.vector, p.2⟩))

/-- Modelled from the spec: the engine's KNN reply — the candidates ranked
by distance with a stable sort (ties keep the scan order) and truncated to
`num_results` (spec sections 4.5 and 8, tie-break rule). -/
def engineSearch (st : EngineState) (q : VectorQuery) : List Row :=
  (List.insertionSort rowLe (candidates st q)).take q.num_results

/-- Shape one raw engine row into a result record: each compiled return
field in order, with `vector_distance` synthesized from the row's
distance and every other field copied from the stored record. -/
def shapeRow (q : VectorQuery) (row : Row) : Record :=
  (compiledReturnFields q).filterMap (fun f =>
    if f = distanceId then some (f, Value.num row.dist)
    else (getField row.stored f).map (fun v => (f, v)))

/-- Modelled from the spec: `query(querySpec)` — execute the compiled
query on the engine and reshape the raw rows into result records in the
engine's return order, with no client-side re-sorting (spec sections 4.5
and 4.6; the redisvl `SearchIndex.query` implementation is absent from
the source tree). -/
def runQuery (st : EngineState) (q : VectorQuery) : List Record :=
  (engineSearch st q).map (shapeRow q)

/-- Remote-state failures surfaced to the caller (spec section 7). -/
inductive RemoteStateError where
  | indexNotFound
deriving DecidableEq, Repr

/-- Modelled from the spec: the checked query entry point — querying when
the index does not exist surfaces a RemoteStateError rather than being
silently swallowed; on an existing index it returns the shaped results
(spec section 7). -/
def queryOp (st : EngineState) (q : VectorQuery) :
    Except RemoteStateError (List Record) :=
  match st.index with
  | none => Except.error RemoteStateError.indexNotFound
  | some _ => Except.ok (runQuery st q)

/-! ## Custom vectorizer (spec sections 4.4 and 9) -/

/-- Modelled from the spec: `CustomTextVectorizer` wraps a user-supplied
text-to-vector function as an embedding capability (spec sections 4.4
and 9; the redisvl `CustomTextVectorizer` implementation is absent from
the source tree).  Its numeric carrier is exact rationals so that
constant vectors such as 768 copies of 0.101 are representable. -/
structure CustomTextVectorizer where
  embedFn : String → List Rat

/-- Modelled from the spec: `embed(text)` applies the wrapped function to
the text. -/
def CustomTextVectorizer.embed (vz : CustomTextVectorizer) (text : String) : List Rat :=
  vz.embedFn text

/-- Modelled from the spec: `embedMany(texts)` applies the wrapped
function to each text in order. -/
def CustomTextVectorizer.embedMany (vz : CustomTextVectorizer)
    (texts : List String) : List (List Rat) :=
  texts.map vz.embedFn

/-! ## Concrete demonstration data used by the witnesses -/

/-- Normalized vector attributes of the notebook's demo schema. -/
def demoVectorAttrs : VectorAttrs :=
  ⟨3, Algorithm.flat, DistanceMetric.cosine, Datatype.float32⟩

/-- The notebook's demo schema: a tag field and a three-dimensional
vector field. -/
def demoSchema : IndexSchema :=
  ⟨"user_simple", "user_simple_docs", StorageType.hash,
   [⟨"user", FieldAttrs.tag ','⟩,
    ⟨"user_embedding", FieldAttrs.vector demoVectorAttrs⟩]⟩

/-- First demo record; its vector is identical to the second record's. -/
def demoRec1 : Record :=
  [("user", Value.str "john"), ("user_embedding", Value.vec [1, 1, 5])]

/-- Second demo record; its vector is identical to the first record's. -/
def demoRec2 : Record :=
  [("user", Value.str "mary"), ("user_embedding", Value.vec [1, 1, 5])]

/-- Demo engine state: the demo schema deployed, two records loaded and
reflected in the index. -/
def demoState : EngineState :=
  ⟨some demoSchema,
   [("user_simple_docs:a", demoRec1), ("user_simple_docs:b", demoRec2)],
   ["user_simple_docs:a", "user_simple_docs:b"]⟩

/-- Demo vector query matching both demo records exactly. -/
def demoQuery : VectorQuery :=
  ⟨[1, 1, 5], "user_embedding", ["user"], 2⟩

/-- The demo schema modified additively: one new numeric field, nothing
removed or retyped. -/
def demoSchemaAdded : IndexSchema :=
  ⟨"user_simple", "user_simple_docs", StorageType.hash,
   [⟨"user", FieldAttrs.tag ','⟩,
    ⟨"user_embedding", FieldAttrs.vector demoVectorAttrs⟩,
    ⟨"age", FieldAttrs.numeric⟩]⟩

/-- The demo schema modified destructively: the `user` field is retyped
from tag to text. -/
def demoSchemaRetyped : IndexSchema :=
  ⟨"user_simple", "user_simple_docs", StorageType.hash,
   [⟨"user", FieldAttrs.text 1⟩,
    ⟨"user_embedding", FieldAttrs.vector demoVectorAttrs⟩]⟩

/-! ## Theorems: vector codec -/

theorem length_natToLEBytes (n w : Nat) : (natToLEBytes n w).length = n := by
  induction n generalizing w with
  | zero => rfl
  | succ n ih => simp [natToLEBytes, ih]

theorem leBytesToNat_natToLEBytes (n w : Nat) (h : w < 256 ^ n) :
    leBytesToNat (natToLEBytes n w) = w := by
  induction n generalizing w with
  | zero =>
    simp only [pow_zero, Nat.lt_one_iff] at h
    subst h
    rfl
  | succ n ih =>
    have hdiv : w / 256 < 256 ^ n := by
      rw [Nat.div_lt_iff_lt_mul (by norm_num : 0 < 256)]
      calc w < 256 ^ (n + 1) := h
        _ = 256 ^ n * 256 := by ring
    simp only [natToLEBytes, leBytesToNat, ih (w / 256) hdiv]
    omega

theorem take_length_eq_append {α : Type} {l1 : List α} {w : Nat}
    (h : l1.length = w) (l2 : List α) : (l1 ++ l2).take w = l1 := by
  subst h
  exact List.take_left _ _

theorem drop_length_eq_append {α : Type} {l1 : List α} {w : Nat}
    (h : l1.length = w) (l2 : List α) : (l1 ++ l2).drop w = l2 := by
  subst h
  exact List.drop_left _ _

/-- C1: for every supported datatype and every vector of representable
elements (given by their bit patterns, arbitrary length — in particular
lengths 1 and 128 and any non-power-of-two length), decoding the encoded
little-endian byte buffer with that datatype and the vector's length
returns the vector exactly: `decode (encode v dt) dt v.length = v`.
Rounding to the datatype's representable precision happens before the
codec runs, so exactness on bit patterns is exactness within precision. -/
theorem decode_encode_roundtrip (dt : Datatype) (v : List Nat)
    (h : ∀ x ∈ v, x < 256 ^ dt.widthBytes) :
    decode (encode v dt) dt v.length = v := by
  induction v with
  | nil => rfl
  | cons x xs ih =>
    have hx : x < 256 ^ dt.widthBytes := h x (List.mem_cons_self x xs)
    have hxs : ∀ y ∈ xs, y < 256 ^ dt.widthBytes :=
      fun y hy => h y (List.mem_cons_of_mem x hy)
    show decodeAux dt.widthBytes (xs.length + 1)
        (natToLEBytes dt.widthBytes x ++ encode xs dt) = x :: xs
    rw [decodeAux,
        take_length_eq_append (length_natToLEBytes dt.widthBytes x) (encode xs dt),
        drop_length_eq_append (length_natToLEBytes dt.widthBytes x) (encode xs dt),
        leBytesToNat_natToLEBytes _ _ hx]
    exact congrArg (x :: ·) (ih hxs)

/-- Witness for C1 at the float32 datatype and the non-power-of-two
length 3. -/
theorem decode_encode_roundtrip_witness :
    (∀ x ∈ [1, 300, 70000], x < 256 ^ Datatype.float32.widthBytes) ∧
    decode (encode [1, 300, 70000] Datatype.float32) Datatype.float32 3 =
      [1, 300, 70000] :=
  ⟨by decide, decode_encode_roundtrip Datatype.float32 [1, 300, 70000] (by decide)⟩

/-! ## Theorems: `load` key assignment -/

theorem loadGo_snd (f : Nat × Record → String) (bsPred : Nat) (st : Store)
    (l : List (Nat × Record)) : (loadGo f bsPred st l).2 = l.map f := by
  induction st, l using loadGo.induct f bsPred with
  | case1 st => simp [loadGo]
  | case2 st x xs batch ks st1 ih =>
    simp only [batch, ks, st1, List.map_cons] at ih
    rw [loadGo]
    simp only [List.cons_append, ih, ← List.map_append, List.take_append_drop,
      List.map_cons]

/-- C2: `load` returns exactly one key per record, in input order and
independently of the internal batch size and of the prior store contents:
the returned key list equals the per-position key formula (`keys[i]` when
supplied, else `pfx:<records[i][idField]>` when `idField` is supplied,
else a generated `pfx:<id>`); in particular, loading two records with
explicit `keys = ["a", "b"]` returns exactly `["a", "b"]` in that order
for every batch size. -/
theorem load_returns_keys_in_input_order :
    (∀ st pfx records idField keys gen bsPred,
      (load st pfx records idField keys gen bsPred).2 =
        records.enum.map (fun p => keyFor pfx idField keys gen p.1 p.2)) ∧
    (∀ st pfx (r1 r2 : Record) gen bsPred,
      (load st pfx [r1, r2] none (some ["a", "b"]) gen bsPred).2 = ["a", "b"]) := by
  constructor
  · intro st pfx records idField keys gen bsPred
    exact loadGo_snd _ _ st records.enum
  · intro st pfx r1 r2 gen bsPred
    exact (loadGo_snd _ _ st [r1, r2].enum).trans rfl

/-! ## Theorems: field attribute validation -/

/-- C7: attribute validation applies the documented defaults exactly — a
vector field with positive `dims` and everything else unspecified
normalizes to {flat, cosine, float32}; omitting `dims` is a
construction-time validation error whatever the other vector attributes
are; an unspecified tag separator defaults to `','`; an unspecified text
weight defaults to 1. -/
theorem validate_applies_defaults (d : Nat) (alg : Option Algorithm)
    (dm : Option DistanceMetric) (dt : Option Datatype) (hd : 0 < d) :
    validate (AttrsIn.vector ⟨some d, none, none, none⟩) =
      Except.ok (FieldAttrs.vector
        ⟨d, Algorithm.flat, DistanceMetric.cosine, Datatype.float32⟩) ∧
    validate (AttrsIn.vector ⟨none, alg, dm, dt⟩) =
      Except.error ValidationError.missingDims ∧
    validate (AttrsIn.tag none) = Except.ok (FieldAttrs.tag ',') ∧
    validate (AttrsIn.text none) = Except.ok (FieldAttrs.text 1) := by
  refine ⟨?_, rfl, rfl, rfl⟩
  simp [validate, validateVectorAttrs, hd, Except.map]

/-- Witness for C7 at `dims = 3`. -/
theorem validate_applies_defaults_witness :
    0 < 3 ∧
    (validate (AttrsIn.vector ⟨some 3, none, none, none⟩) =
      Except.ok (FieldAttrs.vector
        ⟨3, Algorithm.flat, DistanceMetric.cosine, Datatype.float32⟩) ∧
    validate (AttrsIn.vector ⟨none, some Algorithm.hnsw, none, none⟩) =
      Except.error ValidationError.missingDims ∧
    validate (AttrsIn.tag none) = Except.ok (FieldAttrs.tag ',') ∧
    validate (AttrsIn.text none) = Except.ok (FieldAttrs.text 1)) :=
  ⟨by decide,
   validate_applies_defaults 3 (some Algorithm.hnsw) none none (by decide)⟩

/-! ## Theorems: query construction -/

/-- C3: constructing a vector query whose vector length differs from the
target field's declared `dims` fails at construction time with a
dims-mismatch error; since construction is a pure function that returns
no query object in that case, the mismatch never reaches the remote
engine. -/
theorem mkVectorQuery_dims_mismatch_fails (schema : IndexSchema)
    (vector : List Int) (fieldName : String) (returnFields : List String)
    (numResults : Nat) (f : FieldSpec) (va : VectorAttrs)
    (hf : schema.fields.find? (fun g => g.name == fieldName) = some f)
    (hva : f.attrs = FieldAttrs.vector va)
    (hne : vector.length ≠ va.dims) :
    mkVectorQuery schema vector fieldName returnFields numResults =
      Except.error (QueryError.dimsMismatch va.dims vector.length) := by
  obtain ⟨fn, fa⟩ := f
  change fa = FieldAttrs.vector va at hva
  subst hva
  unfold mkVectorQuery
  rw [hf]
  simp [hne]

/-- Witness for C3: the demo schema declares `user_embedding` with
`dims = 3`, and building a query with a length-2 vector fails with the
dims-mismatch error. -/
theorem mkVectorQuery_dims_mismatch_fails_witness :
    List.length [(1 : Int), 2] ≠ demoVectorAttrs.dims ∧
    mkVectorQuery demoSchema [1, 2] "user_embedding" [] 10 =
      Except.error (QueryError.dimsMismatch 3 2) :=
  ⟨by decide,
   mkVectorQuery_dims_mismatch_fails demoSchema [1, 2] "user_embedding" [] 10
     ⟨"user_embedding", FieldAttrs.vector demoVectorAttrs⟩ demoVectorAttrs
     (by decide) rfl (by decide)⟩

/-! ## Theorems: index lifecycle -/

/-- Counterexample to C4 as stated: on the demo state, a destructive
modification (retyping the `user` field from tag to text) followed by
`create(overwrite := true, drop := false)` keeps every previously loaded
record in the store — `fetch` on its key still returns it — yet the demo
query that returned the record before no longer sees it: the kept records
are not reflected in the recreated index until re-loaded
(spec section 4.6). -/
theorem create_overwrite_nodrop_query_loss_counterexample :
    (create demoState demoSchemaRetyped true false).1.store = demoState.store ∧
    lookupKey (create demoState demoSchemaRetyped true false).1.store
      "user_simple_docs:a" = some demoRec1 ∧
    shapeRow demoQuery ⟨"user_simple_docs:a", 0, demoRec1⟩ ∈
      runQuery demoState demoQuery ∧
    runQuery (create demoState demoSchemaRetyped true false).1 demoQuery = [] :=
  ⟨by decide, by decide, by decide, by decide⟩

/-- C4 (amended): with records previously loaded under the index's key
prefix, `create(overwrite := true, drop := false)` deploys the supplied
schema while always leaving the record store untouched, so a subsequent
`fetch` of the records' keys returns the same answers; and when the
schema modification is purely additive (no field removed or retyped), the
records also stay reflected in the recreated index, so subsequent queries
still see them.  (After a destructive modification the kept records are
fetchable but not reflected in the new index until re-loaded.) -/
theorem create_overwrite_nodrop_preserves_records (st : EngineState)
    (schema deployed : IndexSchema) (h : st.index = some deployed) :
    (create st schema true false).1.index = some schema ∧
    (create st schema true false).1.store = st.store ∧
    (∀ keys, fetch (create st schema true false).1 keys = fetch st keys) ∧
    (additiveChange deployed schema = true →
      ∀ q, runQuery (create st schema true false).1 q = runQuery st q) := by
  obtain ⟨idx, store, indexed⟩ := st
  change idx = some deployed at h
  subst h
  by_cases h1 : deployed = schema
  · subst h1
    refine ⟨by simp [create], by simp [create], ?_, ?_⟩
    · intro keys
      simp [create]
    · intro _ q
      simp [create]
  · by_cases h2 : additiveChange deployed schema = true
    · have hmain : (create ⟨some deployed, store, indexed⟩ schema true false).1 =
          ⟨some schema, store, indexed⟩ := by
        simp [create, h1, h2]
      refine ⟨by rw [hmain], by rw [hmain], ?_, ?_⟩
      · intro keys
        rw [hmain]
        rfl
      · intro _ q
        rw [hmain]
        rfl
    · have hmain : (create ⟨some deployed, store, indexed⟩ schema true false).1 =
          ⟨some schema, store,
           indexed.filter (fun k => !keyUnder deployed.keyPfx k)⟩ := by
        simp [create, h1, h2]
      refine ⟨by rw [hmain], by rw [hmain], ?_, ?_⟩
      · intro keys
        rw [hmain]
        rfl
      · intro hadd
        exact absurd hadd h2

/-- Witness for C4 (amended) on the demo state with an additive schema
change: a new field is added, fetch answers are unchanged, and the demo
query still sees the loaded records. -/
theorem create_overwrite_nodrop_preserves_records_witness :
    additiveChange demoSchema demoSchemaAdded = true ∧
    (create demoState demoSchemaAdded true false).1.index = some demoSchemaAdded ∧
    fetch (create demoState demoSchemaAdded true false).1 ["user_simple_docs:a"] =
      fetch demoState ["user_simple_docs:a"] ∧
    runQuery (create demoState demoSchemaAdded true false).1 demoQuery =
      runQuery demoState demoQuery :=
  ⟨by decide,
   (create_overwrite_nodrop_preserves_records demoState demoSchemaAdded
     demoSchema rfl).1,
   (create_overwrite_nodrop_preserves_records demoState demoSchemaAdded
     demoSchema rfl).2.2.1 ["user_simple_docs:a"],
   (create_overwrite_nodrop_preserves_records demoState demoSchemaAdded
     demoSchema rfl).2.2.2 (by decide) demoQuery⟩

/-- C5: `create` on an existing index with `overwrite = false` is an
idempotent no-op success that leaves the engine state unchanged, and
`create(overwrite := true)` when the deployed schema is identical to the
declared one is likewise a no-op success rather than an error. -/
theorem create_existing_is_noop (st : EngineState) (schema : IndexSchema)
    (drop : Bool) :
    (∀ deployed, st.index = some deployed →
      create st schema false drop = (st, CreateResult.noOp)) ∧
    (st.index = some schema →
      create st schema true drop = (st, CreateResult.noOp)) := by
  obtain ⟨idx, store⟩ := st
  constructor
  · intro deployed h
    change idx = some deployed at h
    subst h
    rfl
  · intro h
    change idx = some schema at h
    subst h
    simp [create]

/-- Witness for C5 on the demo state, whose index is deployed with the
demo schema. -/
theorem create_existing_is_noop_witness :
    create demoState demoSchema false false = (demoState, CreateResult.noOp) ∧
    create demoState demoSchema true false = (demoState, CreateResult.noOp) :=
  ⟨(create_existing_is_noop demoState demoSchema false).1 demoSchema rfl,
   (create_existing_is_noop demoState demoSchema false).2 rfl⟩

theorem lookupKey_filter_not_under (pfx : String) (l : Store) (k : String)
    (hk : keyUnder pfx k = true) :
    lookupKey (l.filter (fun p => !keyUnder pfx p.1)) k = none := by
  have hfind : (l.filter (fun p => !keyUnder pfx p.1)).find?
      (fun p => p.1 == k) = none := by
    rw [List.find?_eq_none]
    intro x hx hxk
    rw [List.mem_filter] at hx
    rw [beq_iff_eq] at hxk
    rw [hxk] at hx
    rw [hk] at hx
    simp at hx
  simp [lookupKey, hfind]

/-- C9: `clear` removes every stored record under the index's key prefix
while leaving the index definition in place — in particular `exists`
still answers `true` right after `clear` on an existing index — whereas
`delete()` with its default arguments removes both the index definition
and the stored records under the prefix. -/
theorem clear_keeps_index_delete_removes_both (schema : IndexSchema)
    (st : EngineState) :
    (clear schema st).index = st.index ∧
    (indexExists st = true → indexExists (clear schema st) = true) ∧
    (∀ k, keyUnder schema.keyPfx k = true →
      lookupKey (clear schema st).store k = none) ∧
    (deleteDefault schema st).index = none ∧
    (∀ k, keyUnder schema.keyPfx k = true →
      lookupKey (deleteDefault schema st).store k = none) := by
  refine ⟨rfl, ?_, ?_, rfl, ?_⟩
  · intro h
    exact h
  · intro k hk
    exact lookupKey_filter_not_under _ _ _ hk
  · intro k hk
    exact lookupKey_filter_not_under _ _ _ hk

/-- Witness for C9 on the demo state and the key of its first loaded
record. -/
theorem clear_keeps_index_delete_removes_both_witness :
    indexExists (clear demoSchema demoState) = true ∧
    lookupKey (clear demoSchema demoState).store "user_simple_docs:a" = none ∧
    lookupKey (deleteDefault demoSchema demoState).store "user_simple_docs:a" =
      none :=
  ⟨(clear_keeps_index_delete_removes_both demoSchema demoState).2.1 (by decide),
   (clear_keeps_index_delete_removes_both demoSchema demoState).2.2.1 _
     (by decide),
   (clear_keeps_index_delete_removes_both demoSchema demoState).2.2.2.2 _
     (by decide)⟩

/-! ## Theorems: query result shaping and ordering -/

theorem distanceId_mem_compiledReturnFields (q : VectorQuery) :
    distanceId ∈ compiledReturnFields q := by
  unfold compiledReturnFields
  by_cases h : distanceId ∈ q.return_fields
  · simp [h]
  · simp [h]

theorem find?_shapeRow_distance (row : Row) :
    ∀ (fs : List String), distanceId ∈ fs →
      (fs.filterMap (fun f =>
        if f = distanceId then some (f, Value.num row.dist)
        else (getField row.stored f).map (fun v => (f, v)))).find?
          (fun p => p.1 == distanceId) =
        some (distanceId, Value.num row.dist) := by
  intro fs hmem
  induction fs with
  | nil => cases hmem
  | cons f fs ih =>
    by_cases hf : f = distanceId
    · subst hf
      simp [List.filterMap_cons, List.find?]
    · have hmem' : distanceId ∈ fs := by
        rcases List.mem_cons.mp hmem with h | h
        · exact absurd h.symm hf
        · exact h
      cases hg : getField row.stored f with
      | none => simpa [List.filterMap_cons, hf, hg] using ih hmem'
      | some v => simp [List.filterMap_cons, hf, hg, List.find?_cons, ih hmem']

theorem getField_shapeRow_distanceId (q : VectorQuery) (row : Row) :
    getField (shapeRow q row) distanceId = some (Value.num row.dist) := by
  unfold getField shapeRow
  rw [find?_shapeRow_distance row _ (distanceId_mem_compiledReturnFields q)]
  rfl

theorem distSq_self (v : List Int) : distSq v v = 0 := by
  induction v with
  | nil => rfl
  | cons x xs ih => simp [distSq, ih]

/-- C6: the compiled return fields of a vector query append the
synthesized distance column, under its stable name `vector_distance`,
after the user-specified fields whenever the caller did not list it, and
every record returned by `runQuery` contains the `vector_distance` key. -/
theorem vector_distance_always_in_results (q : VectorQuery) (st : EngineState) :
    (distanceId ∉ q.return_fields →
      compiledReturnFields q = q.return_fields ++ [distanceId]) ∧
    (∀ r, r ∈ runQuery st q → (getField r distanceId).isSome = true) := by
  constructor
  · intro h
    simp [compiledReturnFields, h]
  · intro r hr
    obtain ⟨row, _, rfl⟩ := List.mem_map.mp hr
    rw [getField_shapeRow_distanceId]
    rfl

/-- Witness for C6 on the demo query (whose caller did not list
`vector_distance`) and a record actually returned on the demo state. -/
theorem vector_distance_always_in_results_witness :
    compiledReturnFields demoQuery = demoQuery.return_fields ++ [distanceId] ∧
    (getField (shapeRow demoQuery ⟨"user_simple_docs:a", 0, demoRec1⟩)
      distanceId).isSome = true :=
  ⟨(vector_distance_always_in_results demoQuery demoState).1 (by decide),
   (vector_distance_always_in_results demoQuery demoState).2
     (shapeRow demoQuery ⟨"user_simple_docs:a", 0, demoRec1⟩) (by decide)⟩

/-- C8: the query operation never re-sorts on the client side and the
engine's native order is stable on ties at any equal distance.  For every
vector query: (i) the i-th returned result record is exactly the shaping
of the i-th row of the engine's (possibly truncated) reply, for every
position — so any records at equal distance in the results appear in the
engine's native return order; (ii) any two candidate rows tied at any
equal distance appear in the engine's ranked reply in their original scan
(store) order, by stability of the engine's sort; and (iii) in
particular, two indexed records carrying vectors identical to the query
vector are candidates tied at distance 0, and when the result limit
admits all candidates both are returned, each with `vector_distance` 0,
in their store order. -/
theorem runQuery_preserves_engine_tie_order (st : EngineState)
    (q : VectorQuery) :
    (∀ i : Nat, (runQuery st q)[i]? =
      ((engineSearch st q)[i]?).map (shapeRow q)) ∧
    (∀ a b : Row, a.dist = b.dist →
      List.Sublist [a, b] (candidates st q) →
      List.Sublist [a, b] (List.insertionSort rowLe (candidates st q))) ∧
    (∀ (k1 k2 : String) (r1 r2 : Record),
      List.Sublist [(k1, r1), (k2, r2)]
        (st.store.filter (fun p => st.indexed.contains p.1)) →
      st.index.isSome = true →
      getVec r1 q.vector_field_name = some q.vector →
      getVec r2 q.vector_field_name = some q.vector →
      (candidates st q).length ≤ q.num_results →
      List.Sublist [shapeRow q ⟨k1, 0, r1⟩, shapeRow q ⟨k2, 0, r2⟩]
        (runQuery st q) ∧
      getField (shapeRow q ⟨k1, 0, r1⟩) distanceId = some (Value.num 0) ∧
      getField (shapeRow q ⟨k2, 0, r2⟩) distanceId = some (Value.num 0)) := by
  refine ⟨?_, ?_, ?_⟩
  · intro i
    simp [runQuery, List.getElem?_map]
  · intro a b hab hsub
    exact List.pair_sublist_insertionSort (show rowLe a b from le_of_eq hab) hsub
  · intro k1 k2 r1 r2 hsub hidx h1 h2 hlen
    have hcand : candidates st q =
        (st.store.filter (fun p => st.indexed.contains p.1)).filterMap
          (fun p => (getVec p.2 q.vector_field_name).map
            (fun v => Row.mk p.1 (distSq v q.vector) p.2)) := by
      obtain ⟨idx, store, indexed⟩ := st
      cases idx with
      | none => simp [indexExists] at hidx
      | some d => rfl
    have hrows : List.Sublist [Row.mk k1 0 r1, Row.mk k2 0 r2]
        (candidates st q) := by
      rw [hcand]
      have h := List.Sublist.filterMap (fun p =>
        (getVec p.2 q.vector_field_name).map
          (fun v => Row.mk p.1 (distSq v q.vector) p.2)) hsub
      simpa [List.filterMap_cons, h1, h2, distSq_self] using h
    have hsorted : List.Sublist [Row.mk k1 0 r1, Row.mk k2 0 r2]
        (List.insertionSort rowLe (candidates st q)) :=
      List.pair_sublist_insertionSort
        (show rowLe (Row.mk k1 0 r1) (Row.mk k2 0 r2) from le_refl (0 : Int))
        hrows
    have htake : (List.insertionSort rowLe (candidates st q)).take q.num_results =
        List.insertionSort rowLe (candidates st q) := by
      apply List.take_of_length_le
      rw [List.length_insertionSort]
      exact hlen
    refine ⟨?_, getField_shapeRow_distanceId q _, getField_shapeRow_distanceId q _⟩
    unfold runQuery engineSearch
    rw [htake]
    exact hsorted.map (shapeRow q)

/-- Witness for C8 on the demo state: two records loaded with identical
vectors, queried with that same vector and limit 2 — exercising the
positional no-re-sorting clause, the tie-stability clause and the
distance-0 instance. -/
theorem runQuery_preserves_engine_tie_order_witness :
    (runQuery demoState demoQuery)[0]? =
      ((engineSearch demoState demoQuery)[0]?).map (shapeRow demoQuery) ∧
    List.Sublist
      [Row.mk "user_simple_docs:a" 0 demoRec1,
       Row.mk "user_simple_docs:b" 0 demoRec2]
      (List.insertionSort rowLe (candidates demoState demoQuery)) ∧
    List.Sublist
      [shapeRow demoQuery ⟨"user_simple_docs:a", 0, demoRec1⟩,
       shapeRow demoQuery ⟨"user_simple_docs:b", 0, demoRec2⟩]
      (runQuery demoState demoQuery) ∧
    getField (shapeRow demoQuery ⟨"user_simple_docs:a", 0, demoRec1⟩)
      distanceId = some (Value.num 0) ∧
    getField (shapeRow demoQuery ⟨"user_simple_docs:b", 0, demoRec2⟩)
      distanceId = some (Value.num 0) :=
  ⟨(runQuery_preserves_engine_tie_order demoState demoQuery).1 0,
   (runQuery_preserves_engine_tie_order demoState demoQuery).2.1
     (Row.mk "user_simple_docs:a" 0 demoRec1)
     (Row.mk "user_simple_docs:b" 0 demoRec2) rfl (by decide),
   ((runQuery_preserves_engine_tie_order demoState demoQuery).2.2
     "user_simple_docs:a" "user_simple_docs:b" demoRec1 demoRec2
     (by decide) rfl (by decide) (by decide) (by decide)).1,
   ((runQuery_preserves_engine_tie_order demoState demoQuery).2.2
     "user_simple_docs:a" "user_simple_docs:b" demoRec1 demoRec2
     (by decide) rfl (by decide) (by decide) (by decide)).2.1,
   ((runQuery_preserves_engine_tie_order demoState demoQuery).2.2
     "user_simple_docs:a" "user_simple_docs:b" demoRec1 demoRec2
     (by decide) rfl (by decide) (by decide) (by decide)).2.2⟩

/-! ## Theorems: custom vectorizer -/

/-- C10: `CustomTextVectorizer` passes the wrapped user function through
unchanged: `embed t` returns exactly `f t` and `embedMany` maps `f` over
the texts; in particular wrapping the constant function returning 768
copies of 0.101 yields that same 768-element vector for every input. -/
theorem customTextVectorizer_embed_applies_function (f : String → List Rat)
    (t : String) (ts : List String) :
    (CustomTextVectorizer.mk f).embed t = f t ∧
    (CustomTextVectorizer.mk f).embedMany ts = ts.map f ∧
    (CustomTextVectorizer.mk
        (fun _ => List.replicate 768 ((101 : Rat) / 1000))).embed t =
      List.replicate 768 ((101 : Rat) / 1000) :=
  ⟨rfl, rfl, rfl⟩

end RedisVL
